import Mathlib

/-!
Verification of the AstraMind frontend (Next.js contexts, API client, pages)
against its specification. Definitions are shallow embeddings of the
TypeScript source; components of the backend engine that are not part of
the frontend sources are modelled from the specification and marked as such
in their doc comments.
-/

namespace AstraMind

/-- The `LogEvent` record, as normalized in `ProjectContext.ws.onmessage`. -/
structure LogEvent where
  type : String
  timestamp : String
  project_id : String
  agent : String
  level : String
  msg : String
  artifact_path : Option String
deriving DecidableEq

/-- One `setLogs` update from `ws.onmessage`:
`setLogs((prev) => [...prev.slice(-199), logEvent])`.
JS `arr.slice(-199)` is the suffix of the last (at most) 199 elements,
which is `List.rtake prev 199`. -/
def appendLog (prev : List LogEvent) (e : LogEvent) : List LogEvent :=
  prev.rtake 199 ++ [e]

/-- The retained log after a sequence of events has been received,
starting from the initial state `useState<LogEvent[]>([])`. -/
def logsAfter (es : List LogEvent) : List LogEvent :=
  es.foldl appendLog []

theorem rtake_rtake {α : Type} (l : List α) (m n : Nat) :
    (l.rtake m).rtake n = l.rtake (min n m) := by
  simp [List.rtake_eq_reverse_take_reverse, List.take_take]

theorem logsAfter_append_singleton (es : List LogEvent) (e : LogEvent) :
    logsAfter (es ++ [e]) = appendLog (logsAfter es) e := by
  simp [logsAfter, List.foldl_append]

theorem logsAfter_eq_rtake (es : List LogEvent) :
    logsAfter es = es.rtake 200 := by
  induction es using List.reverseRecOn with
  | nil => simp [logsAfter, List.rtake]
  | append_singleton es e ih =>
    rw [logsAfter_append_singleton, ih, appendLog, rtake_rtake]
    rw [show (200 : Nat) = 199 + 1 from rfl, List.rtake_concat_succ]
    norm_num

theorem rtake_suffix {α : Type} (l : List α) (n : Nat) :
    l.rtake n <:+ l := by
  rw [List.rtake]
  exact List.drop_suffix _ _

theorem length_rtake_le {α : Type} (l : List α) (n : Nat) :
    (l.rtake n).length ≤ n := by
  simp [List.rtake]
  omega

/-- Claim C1: after any sequence of appended events, at most 200 events are
retained, and the retained log is exactly the suffix of the last 200
appended events (oldest evicted first, never mutated or reordered). -/
theorem C1_bounded_retention (es : List LogEvent) :
    logsAfter es = es.rtake 200 ∧
    (logsAfter es).length ≤ 200 ∧
    logsAfter es <:+ es := by
  refine ⟨logsAfter_eq_rtake es, ?_, ?_⟩
  · rw [logsAfter_eq_rtake]; exact length_rtake_le es 200
  · rw [logsAfter_eq_rtake]; exact rtake_suffix es 200

/-- Claim C4: each newly received event is appended after a suffix of the
previously retained events (never inserted or reordered), the retained log
is always a sublist of the emission sequence (relative order preserved),
and a run producing exactly `e1, e2, e3` yields the log `[e1, e2, e3]`. -/
theorem C4_emission_order (prev : List LogEvent) (e : LogEvent)
    (es : List LogEvent) (e1 e2 e3 : LogEvent) :
    (∃ rest, appendLog prev e = rest ++ [e] ∧ rest <:+ prev) ∧
    List.Sublist (logsAfter es) es ∧
    logsAfter [e1, e2, e3] = [e1, e2, e3] := by
  refine ⟨⟨prev.rtake 199, rfl, rtake_suffix prev 199⟩, ?_, ?_⟩
  · rw [logsAfter_eq_rtake]
    exact (rtake_suffix es 200).sublist
  · rw [logsAfter_eq_rtake]
    simp [List.rtake]

namespace ArtifactStore

/-- The artifact store of one run: the sequence of accepted writes, in
acceptance order, each a `(path, content)` pair. -/
abbrev Store : Type := List (String × String)

/-- The contents written to a path, in write order; the `i`-th element
(counting from 1) is the content of version `i` of that path. -/
def versionsOf (s : Store) (p : String) : List String :=
  (List.filter (fun e => e.1 == p) s).map Prod.snd

/-- The number of versions a path currently has. -/
def countPath (s : Store) (p : String) : Nat :=
  (versionsOf s p).length

/-- Modelled from the spec: `write(run_id, path, content, actor) → version`
of the Artifact Store (the backend engine is not among the frontend
sources). Every write appends a new version — no in-place overwrite — and
the returned version is one past the number of existing versions. -/
def write (s : Store) (p c : String) : Store × Nat :=
  (List.append s [(p, c)], countPath s p + 1)

/-- Modelled from the spec: `read(run_id, path, version?) → content` of the
Artifact Store. Reading without an explicit version returns the latest
version's content; reading with version `v ≥ 1` returns that version's
content. -/
def read (s : Store) (p : String) : Option Nat → Option String
  | none => (versionsOf s p).getLast?
  | some v => (versionsOf s p)[v - 1]?

/-- Successive writes of the given contents to one path; returns the final
store and the sequence of versions the writes returned. -/
def writeMany (s : Store) (p : String) : List String → Store × List Nat
  | [] => (s, [])
  | c :: cs =>
    let w := write s p c
    let rest := writeMany w.1 p cs
    (rest.1, w.2 :: rest.2)

/-- The sequence `a, a+1, …, a+n-1`: the spec's expected version sequence
(`1, 2, 3, …` when `a = 1`). -/
def versionSeq (a : Nat) : Nat → List Nat
  | 0 => []
  | n + 1 => a :: versionSeq (a + 1) n

theorem versionsOf_write (s : Store) (p c : String) :
    versionsOf (write s p c).1 p = versionsOf s p ++ [c] := by
  simp [versionsOf, write, List.filter_append, List.append]

theorem versionsOf_write_other (s : Store) (p c q : String) (hq : (q == p) = false) :
    versionsOf (write s q c).1 p = versionsOf s p := by
  simp [versionsOf, write, List.filter_append, List.append, hq]

theorem countPath_write (s : Store) (p c : String) :
    countPath (write s p c).1 p = countPath s p + 1 := by
  simp [countPath, versionsOf_write]

theorem writeMany_snd (s : Store) (p : String) (cs : List String) :
    (writeMany s p cs).2 = versionSeq (countPath s p + 1) cs.length := by
  induction cs generalizing s with
  | nil => simp [writeMany, versionSeq]
  | cons c cs ih =>
    simp only [writeMany, versionSeq, List.length_cons]
    rw [ih, countPath_write]
    simp [write]

theorem versionSeq_chain : ∀ (n a : Nat),
    List.Chain' (fun x y => y = x + 1) (versionSeq a n)
  | 0, _ => by simp [versionSeq]
  | 1, _ => by simp [versionSeq]
  | n + 2, a => by
    have ih := versionSeq_chain (n + 1) (a + 1)
    simp only [versionSeq] at ih ⊢
    exact List.Chain'.cons rfl ih

theorem read_old_version (s : Store) (p c : String) (v : Nat)
    (h1 : 1 ≤ v) (h2 : v ≤ countPath s p) :
    read (write s p c).1 p (some v) = read s p (some v) := by
  simp only [read, versionsOf_write]
  rw [List.getElem?_append_left]
  simp only [countPath] at h2
  omega

/-- Claim C2: reading a path without an explicit version returns the latest
version's content; in the example scenario — write `src/app.py` with `"a"`
then `"b"` — the second write returns version 2, a read with no version
returns `"b"`, and a read with version 1 returns `"a"`. -/
theorem C2_read_latest (s : Store) (p c : String) :
    read (write s p c).1 p none = some c ∧
    read s p none = (versionsOf s p).getLast? ∧
    (write (write ([] : Store) "src/app.py" "a").1 "src/app.py" "b").2 = 2 ∧
    read (write (write ([] : Store) "src/app.py" "a").1 "src/app.py" "b").1
      "src/app.py" none = some "b" ∧
    read (write (write ([] : Store) "src/app.py" "a").1 "src/app.py" "b").1
      "src/app.py" (some 1) = some "a" := by
  refine ⟨?_, rfl, by decide, by decide, by decide⟩
  rw [read, versionsOf_write, List.getLast?_concat]

/-- Claim C7: every write appends a new version (earlier versions of the
path remain readable unchanged), and the versions returned by successive
writes to one path starting from an empty store are exactly `1, 2, 3, …` —
strictly increasing, no gaps, no repeats. -/
theorem C7_version_sequence (s : Store) (p c : String) (cs : List String) (v : Nat)
    (h1 : 1 ≤ v) (h2 : v ≤ countPath s p) :
    (writeMany ([] : Store) p cs).2 = versionSeq 1 cs.length ∧
    List.Chain' (fun x y => y = x + 1) (writeMany s p cs).2 ∧
    (write s p c).2 = countPath s p + 1 ∧
    read (write s p c).1 p (some v) = read s p (some v) := by
  refine ⟨?_, ?_, rfl, read_old_version s p c v h1 h2⟩
  · rw [writeMany_snd]
    simp [countPath, versionsOf]
  · rw [writeMany_snd]
    exact versionSeq_chain _ _

/-- Witness for C7 at a concrete store and version. -/
theorem C7_version_sequence_witness :
    (writeMany ([] : ArtifactStore.Store) "f.txt" ["x", "y", "z"]).2 =
      [1, 2, 3] ∧
    read (write ([("f.txt", "x")] : Store) "f.txt" "y").1 "f.txt" (some 1) =
      read ([("f.txt", "x")] : Store) "f.txt" (some 1) := by
  have h := C7_version_sequence ([("f.txt", "x")] : Store) "f.txt" "y"
    ["x", "y", "z"] 1 (by decide) (by decide)
  exact ⟨h.1, h.2.2.2⟩

end ArtifactStore

/-- Per-step status, from the spec's data model (§3). -/
inductive StepStatus
  | pending
  | running
  | done
  | failed
  | skipped
deriving DecidableEq

/-- A step of the run's step graph, reduced to the fields cancellation
touches. -/
structure StepState where
  id : String
  status : StepStatus
deriving DecidableEq

/-- A run as cancellation sees it: its status string and its steps. -/
structure RunState where
  status : String
  steps : List StepState
deriving DecidableEq

/-- The three terminal statuses of a run. -/
def terminalStatuses : List String := ["done", "failed", "stopped"]

/-- Modelled from the spec: `Run Controller.cancel` (the backend engine is
not among the frontend sources). Canceling an already-terminal run is a
no-op; otherwise remaining pending steps are marked `skipped` and the
status is set to `stopped`. -/
def cancel (r : RunState) : RunState :=
  if r.status ∈ terminalStatuses then r
  else
    { status := "stopped"
      steps := r.steps.map fun st =>
        if st.status = StepStatus.pending then { st with status := StepStatus.skipped }
        else st }

namespace DocumentCtx

/-- The WebSocket handle kept in `wsRef`, reduced to its `readyState`. -/
structure Socket where
  readyState : Nat
deriving DecidableEq

/-- Constant `WebSocket.OPEN` of the WebSocket API. -/
def WS_OPEN : Nat := 1

/-- The exact text `JSON.stringify(\x7btype: "command", command: "stop"\x7d)`
that `sendStop` puts on the wire. -/
def stopMessageText : String :=
  "\x7b\"type\":\"command\",\"command\":\"stop\"\x7d"

/-- Function `sendStop` from `DocumentContext`: sends the stop command when a socket
exists and its `readyState` is `OPEN`; otherwise it does nothing. The
result is the list of messages put on the wire. -/
def sendStop (ws : Option Socket) : List String :=
  match ws with
  | some s => if s.readyState == WS_OPEN then [stopMessageText] else []
  | none => []

/-- Flag `isRunning` from `DocumentContext`: whether the status is one of the
six in-flight statuses. -/
def isRunning (status : String) : Bool :=
  ["creating", "planning", "writing", "reviewing", "compiling", "running"].contains status

/-- The stop requests the document page can issue: the Stop button is
rendered only when `isRunning`, and `handleStop` calls `sendStop` only
after the user confirms. -/
def stopRequests (status : String) (confirmStop : Bool) (ws : Option Socket) : List String :=
  if isRunning status then (if confirmStop then sendStop ws else []) else []

end DocumentCtx

/-- An inbound control message on the run's event WebSocket. -/
structure CtrlMsg where
  type : String
  command : String
deriving DecidableEq

/-- The stop control message `\x7btype: "command", command: "stop"\x7d`. -/
def stopCommandMsg : CtrlMsg := { type := "command", command := "stop" }

/-- JSON serialization of a control message, as `JSON.stringify` renders
the two-field object sent by `sendStop`. -/
def serializeCtrl (m : CtrlMsg) : String :=
  "\x7b\"type\":\"" ++ m.type ++ "\",\"command\":\"" ++ m.command ++ "\"\x7d"

/-- Modelled from the spec: the Transport Gateway routes inbound `stop`
control messages received on the event channel synchronously to
`Run Controller.cancel`; any other message leaves the run untouched. -/
def routeInbound (m : CtrlMsg) (r : RunState) : RunState :=
  if m.type == "command" && m.command == "stop" then cancel r else r

/-- Claim C3: canceling a terminal run is a no-op (status after equals
status before), a terminal status is not one of the six in-flight
statuses, and a run that is not in-flight has the stop command withheld
(the page issues no stop request). -/
theorem C3_cancel_idempotent_terminal (r : RunState) (confirmStop : Bool)
    (ws : Option DocumentCtx.Socket) :
    (r.status ∈ terminalStatuses →
      cancel r = r ∧ (cancel r).status = r.status ∧
      DocumentCtx.isRunning r.status = false) ∧
    (DocumentCtx.isRunning r.status = false →
      DocumentCtx.stopRequests r.status confirmStop ws = []) := by
  constructor
  · intro h
    have hnr : DocumentCtx.isRunning r.status = false := by
      simp only [terminalStatuses, List.mem_cons, List.not_mem_nil, or_false] at h
      rcases h with h | h | h <;> simp [DocumentCtx.isRunning, h]
    exact ⟨by simp [cancel, h], by simp [cancel, h], hnr⟩
  · intro h
    simp [DocumentCtx.stopRequests, h]

/-- Witness for C3 at a concrete terminal run. -/
theorem C3_cancel_idempotent_terminal_witness :
    cancel { status := "done", steps := [] } = { status := "done", steps := [] } ∧
    DocumentCtx.stopRequests "done" true (some { readyState := 1 }) = [] := by
  have h := C3_cancel_idempotent_terminal { status := "done", steps := [] } true
    (some { readyState := 1 })
  exact ⟨(h.1 (by decide)).1, h.2 (by decide)⟩

/-- Claim C6: a socket in the `OPEN` state sends exactly the serialized
stop control message `\x7btype: "command", command: "stop"\x7d`, and the
gateway routes that message to the Run Controller's cancel operation. -/
theorem C6_stop_routed_to_cancel (s : DocumentCtx.Socket) (r : RunState)
    (h : s.readyState = DocumentCtx.WS_OPEN) :
    DocumentCtx.sendStop (some s) = [serializeCtrl stopCommandMsg] ∧
    routeInbound stopCommandMsg r = cancel r := by
  constructor
  · simp [DocumentCtx.sendStop, h, DocumentCtx.stopMessageText, serializeCtrl, stopCommandMsg]
  · simp [routeInbound, stopCommandMsg]

/-- Witness for C6 at a concrete open socket and run. -/
theorem C6_stop_routed_to_cancel_witness :
    DocumentCtx.sendStop (some { readyState := 1 }) =
      [serializeCtrl stopCommandMsg] ∧
    routeInbound stopCommandMsg { status := "writing", steps := [] } =
      cancel { status := "writing", steps := [] } :=
  C6_stop_routed_to_cancel { readyState := 1 } { status := "writing", steps := [] } rfl

/-- Claim C9: `sendStop` is total and effect-guarded — it sends the single
stop message exactly when a socket exists whose `readyState` is `OPEN`,
and in every other state it sends nothing. -/
theorem C9_sendStop_guarded (ws : Option DocumentCtx.Socket) :
    (DocumentCtx.sendStop ws = [DocumentCtx.stopMessageText] ∨
      DocumentCtx.sendStop ws = []) ∧
    (DocumentCtx.sendStop ws = [DocumentCtx.stopMessageText] ↔
      ∃ s, ws = some s ∧ s.readyState = DocumentCtx.WS_OPEN) := by
  match ws with
  | none =>
    refine ⟨Or.inr rfl, ?_, ?_⟩
    · intro h
      simp [DocumentCtx.sendStop] at h
    · rintro ⟨s, hs, _⟩
      cases hs
  | some s =>
    by_cases h : s.readyState = DocumentCtx.WS_OPEN
    · refine ⟨Or.inl ?_, ?_, fun _ => ?_⟩
      · simp [DocumentCtx.sendStop, h]
      · intro _
        exact ⟨s, rfl, h⟩
      · simp [DocumentCtx.sendStop, h]
    · have hb : (s.readyState == DocumentCtx.WS_OPEN) = false := by
        simpa using h
      refine ⟨Or.inr ?_, ?_, ?_⟩
      · simp [DocumentCtx.sendStop, hb]
      · intro hcontra
        simp [DocumentCtx.sendStop, hb] at hcontra
      · rintro ⟨t, ht, hto⟩
        cases ht
        exact absurd hto h

namespace ProjectCtx

/-- JS falsiness of an optional string: `undefined`/`null` and the empty
string are falsy, so `!projectId` and `!selectedFile` hold exactly here. -/
def jsFalsy : Option String → Bool
  | none => true
  | some s => s == ""

/-- An observable effect of a project-context handler: a sound, a network
request, a state update, or an alert. -/
inductive Effect
  | sound (name : String)
  | httpGet (endpoint : String)
  | httpPost (endpoint : String)
  | setState (field : String)
  | alert (text : String)
deriving DecidableEq

/-- Function `fetchFiles` from `ProjectContext`: guarded on `projectId`; issues the
files GET and, when the response is ok, stores the file list. -/
def fetchFiles (pid : Option String) (ok : Bool) : List Effect :=
  if jsFalsy pid then []
  else [Effect.httpGet "files"] ++ (if ok then [Effect.setState "files"] else [])

/-- Function `handleSave` from `ProjectContext`: guarded on `projectId` and
`selectedFile`; plays a click, posts the file, then refreshes the list. -/
def handleSave (pid sel : Option String) (ok : Bool) : List Effect :=
  if jsFalsy pid || jsFalsy sel then []
  else [Effect.sound "click", Effect.httpPost "file"] ++ fetchFiles pid ok

/-- Function `handleDeepReview` from `ProjectContext`: guarded on `projectId` and
`selectedFile`; plays a click, posts the review request, and on an ok
response plays a success sound and shows the result. -/
def handleDeepReview (pid sel : Option String) (ok : Bool) : List Effect :=
  if jsFalsy pid || jsFalsy sel then []
  else [Effect.sound "click", Effect.httpPost "review"] ++
    (if ok then [Effect.sound "success", Effect.alert "review result"] else [])

/-- A chat turn as the caller supplies it (spec §3: `\x7brole, text\x7d`). -/
structure ChatTurn where
  role : String
  text : String
deriving DecidableEq

/-- The body `JSON.stringify(\x7bmessage, history\x7d)` sent by
`handleChat`. -/
structure ChatRequestBody where
  message : String
  history : List ChatTurn
deriving DecidableEq

/-- The body of a successful chat response; `handleChat` returns its
`response` field. -/
structure ChatResponseBody where
  response : String
deriving DecidableEq

/-- Function `handleChat` from `ProjectContext`. Here `server` stands for the fetch of
the chat endpoint (`none` models a non-ok response, which makes the
handler throw). Returns the request bodies issued and the handler's
outcome. -/
def handleChat (pid : Option String) (message : String) (history : List ChatTurn)
    (server : ChatRequestBody → Option ChatResponseBody) :
    List ChatRequestBody × Except String String :=
  if jsFalsy pid then ([], Except.ok "Error: No project ID")
  else
    let req : ChatRequestBody := { message := message, history := history }
    match server req with
    | none => ([req], Except.error "Failed to send message")
    | some data => ([req], Except.ok data.response)

end ProjectCtx

/-- A run as the chat operation sees it: its status and artifact store. -/
structure RunFull where
  status : String
  store : ArtifactStore.Store
deriving DecidableEq

/-- Modelled from the spec: `chat(run_id, message, history) → reply` of the
Run Controller (the backend engine is not among the frontend sources). It
invokes an agent capability scoped to the current artifact state, commits
the agent's file writes as a side effect, and returns the agent's
natural-language reply; it does not alter run status. -/
def chatOp (r : RunFull) (req : ProjectCtx.ChatRequestBody)
    (agent : ProjectCtx.ChatRequestBody → ArtifactStore.Store →
      List (String × String) × String) :
    RunFull × String :=
  let res := agent req r.store
  ({ status := r.status
     store := res.1.foldl (fun s pc => (ArtifactStore.write s pc.1 pc.2).1) r.store },
   res.2)

/-- Claim C5: chat sends exactly the caller's message together with the
full caller-owned history, returns exactly the reply field of the
response, and does not alter the run's status. -/
theorem C5_chat_contract (r : RunFull) (req : ProjectCtx.ChatRequestBody)
    (agent : ProjectCtx.ChatRequestBody → ArtifactStore.Store →
      List (String × String) × String)
    (pid : Option String) (msg : String) (hist : List ProjectCtx.ChatTurn)
    (server : ProjectCtx.ChatRequestBody → Option ProjectCtx.ChatResponseBody) :
    (chatOp r req agent).1.status = r.status ∧
    (chatOp r req agent).2 = (agent req r.store).2 ∧
    (ProjectCtx.jsFalsy pid = false →
      ∀ body, server { message := msg, history := hist } = some body →
        ProjectCtx.handleChat pid msg hist server =
          ([{ message := msg, history := hist }], Except.ok body.response)) := by
  refine ⟨rfl, rfl, ?_⟩
  intro hp body hbody
  simp [ProjectCtx.handleChat, hp, hbody]

/-- Witness for C5 at a concrete run, message and server. -/
theorem C5_chat_contract_witness :
    (chatOp { status := "writing", store := [] }
      { message := "hi", history := [] } (fun _ _ => ([], "reply"))).1.status =
      "writing" ∧
    ProjectCtx.handleChat (some "p1") "hi" []
      (fun _ => some { response := "sure" }) =
      ([{ message := "hi", history := [] }], Except.ok "sure") := by
  have h := C5_chat_contract { status := "writing", store := [] }
    { message := "hi", history := [] } (fun _ _ => ([], "reply"))
    (some "p1") "hi" [] (fun _ => some { response := "sure" })
  exact ⟨h.1, h.2.2 (by decide) { response := "sure" } rfl⟩

/-- Claim C10: with a falsy `projectId`, `handleSave`, `handleDeepReview`
and `fetchFiles` produce no effect at all and `handleChat` returns
`"Error: No project ID"` without issuing a request; with no selected file,
`handleSave` and `handleDeepReview` likewise produce no effect. -/
theorem C10_identifier_guards (pid sel : Option String) (ok : Bool) (msg : String)
    (hist : List ProjectCtx.ChatTurn)
    (server : ProjectCtx.ChatRequestBody → Option ProjectCtx.ChatResponseBody) :
    (ProjectCtx.jsFalsy pid = true →
      ProjectCtx.handleSave pid sel ok = [] ∧
      ProjectCtx.handleDeepReview pid sel ok = [] ∧
      ProjectCtx.fetchFiles pid ok = [] ∧
      ProjectCtx.handleChat pid msg hist server =
        ([], Except.ok "Error: No project ID")) ∧
    (ProjectCtx.jsFalsy sel = true →
      ProjectCtx.handleSave pid sel ok = [] ∧
      ProjectCtx.handleDeepReview pid sel ok = []) := by
  constructor
  · intro h
    refine ⟨?_, ?_, ?_, ?_⟩
    · simp [ProjectCtx.handleSave, h]
    · simp [ProjectCtx.handleDeepReview, h]
    · simp [ProjectCtx.fetchFiles, h]
    · simp [ProjectCtx.handleChat, h]
  · intro h
    exact ⟨by simp [ProjectCtx.handleSave, h], by simp [ProjectCtx.handleDeepReview, h]⟩

/-- Witness for C10 with an absent project id and an absent selection. -/
theorem C10_identifier_guards_witness :
    ProjectCtx.handleChat none "hi" [] (fun _ => none) =
      ([], Except.ok "Error: No project ID") ∧
    ProjectCtx.handleSave (some "p1") none true = [] := by
  have h1 := C10_identifier_guards none none true "hi" [] (fun _ => none)
  have h2 := C10_identifier_guards (some "p1") none true "hi" [] (fun _ => none)
  exact ⟨(h1.1 rfl).2.2.2, (h2.2 rfl).1⟩

namespace ApiClient

/-- The JSON body of an HTTP response, reduced to the two fields `request`
inspects; a missing field is `none`. -/
structure JsonBody where
  detail : Option String
  message : Option String
deriving DecidableEq

/-- An HTTP response as `ApiClient.request` sees it; `jsonBody = none`
models a body that fails to parse as JSON. -/
structure HttpResponse where
  ok : Bool
  status : Nat
  statusText : String
  jsonBody : Option JsonBody
deriving DecidableEq

/-- JS truthiness of an optional string field: present and non-empty. -/
def jsTruthy : Option String → Bool
  | none => false
  | some s => !(s == "")

/-- The default error text built from the status line. -/
def statusLine (r : HttpResponse) : String :=
  "API Error: " ++ toString r.status ++ " " ++ r.statusText

/-- The error message of a non-ok response:
`data.detail || data.message || message` with the status-line default,
falling back to the default when the body is not JSON. -/
def errMessage (r : HttpResponse) : String :=
  match r.jsonBody with
  | none => statusLine r
  | some data =>
    if jsTruthy data.detail then data.detail.getD ""
    else if jsTruthy data.message then data.message.getD ""
    else statusLine r

/-- Method `ApiClient.request`: throws on a non-ok response, returns an empty
object on 204, else returns the parsed JSON body. -/
def request (r : HttpResponse) : Except String JsonBody :=
  if !r.ok then Except.error (errMessage r)
  else if r.status == 204 then Except.ok { detail := none, message := none }
  else
    match r.jsonBody with
    | some b => Except.ok b
    | none => Except.error "invalid json"

end ApiClient

/-- Claim C8: a non-ok response never yields a return value — `request`
raises an error whose message is the body's non-empty `detail` field, else
its non-empty `message` field, else the status line — and an ok response
with status 204 returns the empty object. -/
theorem C8_request_error_contract (r : ApiClient.HttpResponse) :
    (r.ok = false →
      ApiClient.request r = Except.error (ApiClient.errMessage r) ∧
      ∀ b, ApiClient.request r ≠ Except.ok b) ∧
    (r.ok = true → r.status = 204 →
      ApiClient.request r = Except.ok { detail := none, message := none }) ∧
    (∀ b d, r.jsonBody = some b → b.detail = some d → d ≠ "" →
      ApiClient.errMessage r = d) ∧
    (∀ b m, r.jsonBody = some b → ApiClient.jsTruthy b.detail = false →
      b.message = some m → m ≠ "" → ApiClient.errMessage r = m) ∧
    (∀ b, r.jsonBody = some b → ApiClient.jsTruthy b.detail = false →
      ApiClient.jsTruthy b.message = false → ApiClient.errMessage r = ApiClient.statusLine r) ∧
    (r.jsonBody = none → ApiClient.errMessage r = ApiClient.statusLine r) := by
  refine ⟨?_, ?_, ?_, ?_, ?_, ?_⟩
  · intro h
    constructor
    · simp [ApiClient.request, h]
    · intro b hb
      simp [ApiClient.request, h] at hb
  · intro hok h204
    simp [ApiClient.request, hok, h204]
  · intro b d hb hd hne
    simp [ApiClient.errMessage, hb, hd, ApiClient.jsTruthy, hne]
  · intro b m hb hd hm hne
    have hmt : ApiClient.jsTruthy b.message = true := by
      simp [ApiClient.jsTruthy, hm, hne]
    simp [ApiClient.errMessage, hb, hd, hmt, hm]
    intro hc
    simp [ApiClient.jsTruthy] at hc
    exact absurd hc hne
  · intro b hb hd hm
    simp [ApiClient.errMessage, hb, hd, hm]
  · intro hb
    simp [ApiClient.errMessage, hb]

/-- Witness for C8 at a concrete failing response and a concrete 204. -/
theorem C8_request_error_contract_witness :
    ApiClient.request ⟨false, 404, "Not Found", some ⟨some "nope", none⟩⟩ =
      Except.error "nope" ∧
    ApiClient.request ⟨true, 204, "No Content", none⟩ =
      Except.ok ⟨none, none⟩ := by
  have h1 := C8_request_error_contract
    ⟨false, 404, "Not Found", some ⟨some "nope", none⟩⟩
  have h2 := C8_request_error_contract ⟨true, 204, "No Content", none⟩
  refine ⟨?_, h2.2.1 rfl rfl⟩
  rw [(h1.1 rfl).1]
  rw [h1.2.2.1 ⟨some "nope", none⟩ "nope" rfl rfl (by decide)]

end AstraMind
